import Mathlib

/-!
Shallow embedding of the germanminerjs client library.

The embedding models the quota-tracking client (`src/client.ts`), the
bank-account resource and service (`src/common/schemas/bank.ts`), the player
resource (`Player` in the repository), and the quota-info validation schema
(`src/common/schemas/api-info.ts`).

Conventions of the embedding:
* Timestamps (`Date.now()`) are passed explicitly as an integer `now`;
  an operation that reads the clock several times is modelled with a single
  instant, which is faithful for the properties considered here.
* The network is an oracle: an operation that fetches `api/info` receives the
  validated response as a parameter `info`; a bank fetch receives the validated
  record `resp`; player-name/uuid lookups are total functions, with the empty
  string standing for a missing (falsy) field in the response.
* Every operation returns, besides its result and the updated client state,
  the list of endpoints it hit, in order.
-/

namespace GM

/-- Endpoints of the remote API that the library can hit. -/
inductive Endpoint
  | apiInfo
  | bankInfo (accountNumber : String)
  | bankList
  | utilUuid (playername : String)
  | utilPlayername (uuid : String)
deriving DecidableEq, Repr

/-- Validated quota snapshot, the parse result of the `api/info` payload
(`ApiInfoData` in `api-info.ts`).  The two counters passed `.int()`
validation, so they are integers. -/
structure ApiInfoData where
  limit : Int
  requests : Int
  outstandingCosts : Rat
deriving DecidableEq, Repr

/-- Mutable state of a `GMClient`: the private quota-cache fields
`#REQ_LIMIT`, `#requestCount`, `#lastUpdated` (`client.ts` lines 25-27).
`lastFetched` is a ghost field recording the result of the last successful
quota-info fetch stored into the cache; it is written exactly where the code
assigns the fetched `apiInfo` into the cache and read by no operation. -/
structure ClientState where
  REQ_LIMIT : Int
  requestCount : Int
  lastUpdated : Int
  lastFetched : ApiInfoData
deriving DecidableEq, Repr

/-- Error kinds of the library
(`LimitReachedError`, `GmClientError`, `ApiError`). -/
inductive GMError
  | limitReached (currentRequests : Int) (limit : Int)
  | gmClientError (message : String)
  | apiError (message : String)
deriving DecidableEq, Repr

/-- Constant `MAX_CACHE_LIFETIME` from `client.ts` (ten minutes in
milliseconds). -/
def MAX_CACHE_LIFETIME : Int := 600000

/-- Body of `GMClient.isLimitReached` (`client.ts` lines 81-83). -/
def isLimitReachedFn (s : ClientState) : Bool :=
  s.requestCount ≥ s.REQ_LIMIT

/-- Body of `GMClient.isCacheOutdated` (`client.ts` lines 93-95). -/
def isCacheOutdated (now : Int) (s : ClientState) : Bool :=
  now - s.lastUpdated > MAX_CACHE_LIFETIME

/-- The call `getApiInfo(true)` as issued internally by `refreshCache` and
`create`: `handleOperation(true)` only increments the advisory counter, then
`api/info` is fetched and validated; the cache fields are not touched here. -/
def getApiInfoBypass (s : ClientState) (info : ApiInfoData) :
    ApiInfoData × ClientState × List Endpoint :=
  (info, { s with requestCount := s.requestCount + 1 }, [Endpoint.apiInfo])

/-- Body of `GMClient.refreshCache` (`client.ts` lines 122-127): fetch via
`getApiInfo(true)`, then assign `#REQ_LIMIT`, `#requestCount`, `#lastUpdated`
from the result. -/
def refreshCache (s : ClientState) (now : Int) (info : ApiInfoData) :
    ClientState × List Endpoint :=
  let r := getApiInfoBypass s info
  ({ r.2.1 with
      REQ_LIMIT := r.1.limit
      requestCount := r.1.requests
      lastUpdated := now
      lastFetched := r.1 },
    r.2.2)

/-- Body of `GMClient.handleOperation` (`client.ts` lines 97-110): increment
`#requestCount`, and unless `ignoreCache` is set, refresh the cache when it is
outdated and then fail with `LimitReachedError` when the (possibly refreshed)
cache shows the limit reached. -/
def handleOperation (s : ClientState) (now : Int) (info : ApiInfoData)
    (ignoreCache : Bool) :
    Except GMError Unit × ClientState × List Endpoint :=
  let s1 : ClientState := { s with requestCount := s.requestCount + 1 }
  if ignoreCache then (Except.ok (), s1, [])
  else
    let r := if isCacheOutdated now s1 then refreshCache s1 now info
             else (s1, [])
    if isLimitReachedFn r.1 then
      (Except.error (GMError.limitReached r.1.requestCount r.1.REQ_LIMIT),
        r.1, r.2)
    else
      (Except.ok (), r.1, r.2)

/-- Body of `GMClient.getApiInfo` (`client.ts` lines 132-146): run the
precheck, then always fetch and validate `api/info`.  `info` is the oracle for
a refresh fetch inside the precheck, `fetched` the oracle for the
method's own fetch.  The method does not write the cache fields. -/
def getApiInfo (s : ClientState) (now : Int) (info fetched : ApiInfoData)
    (ignoreCache : Bool) :
    Except GMError ApiInfoData × ClientState × List Endpoint :=
  match handleOperation s now info ignoreCache with
  | (Except.ok _, s1, tr) => (Except.ok fetched, s1, tr ++ [Endpoint.apiInfo])
  | (Except.error e, s1, tr) => (Except.error e, s1, tr)

/-- The call `isLimitReached()` as an operation: it reads the two cached
counters and touches nothing else (`client.ts` lines 81-83). -/
def isLimitReachedOp (s : ClientState) : Bool × ClientState × List Endpoint :=
  (isLimitReachedFn s, s, [])

/-- Body of `GMClient.getRemainingRequests` (`client.ts` lines 88-91).  The
method is synchronous and invokes `refreshCache()` WITHOUT `await`: of the
started refresh, only its synchronous prefix — the advisory increment inside
`handleOperation(true)` — runs before the method computes and returns
`#REQ_LIMIT - #requestCount`.  The fetch of the pending refresh has not even
been issued at that point (the continuation is deferred at the first `await`),
so the returned trace is empty and the cache fields still hold their old
values; see `getRemainingRequestsAfter` for the deferred remainder. -/
def getRemainingRequests (s : ClientState) : Int × ClientState × List Endpoint :=
  let s1 : ClientState := { s with requestCount := s.requestCount + 1 }
  (s1.REQ_LIMIT - s1.requestCount, s1, [])

/-- Deferred continuation of the un-awaited `refreshCache()` started by
`getRemainingRequests`: it completes only after the method has returned,
fetching `api/info` and assigning the cache fields. -/
def getRemainingRequestsAfter (s : ClientState) (now : Int)
    (info : ApiInfoData) : ClientState × List Endpoint :=
  ({ s with
      REQ_LIMIT := info.limit
      requestCount := info.requests
      lastUpdated := now
      lastFetched := info },
    [Endpoint.apiInfo])

/-- A `Player` entity (the player resource of the repository): both keys are
optional fields of the object. -/
structure Player where
  playerName : Option String
  uuid : Option String
deriving DecidableEq, Repr

/-- Oracle for the two player lookup endpoints.  The source coerces the
response field with `String(...)` and treats a falsy result as missing; the
empty string models that missing value. -/
structure PlayerLookups where
  uuidFromPlayername : String → String
  playernameFromUuid : String → String

/-- Synchronous-prefix semantics of the floating `this.#ctx.handleOperation()`
call inside `_getUuidFromPlayername` / `_getPlayernameFromUuid`: the promise
is started but never awaited, so its advisory increment runs synchronously;
when the cache is stale its refresh continuation still runs (interleaved with
the lookup fetch), and a limit failure inside it is an unhandled rejection
that never aborts the lookup. -/
def floatingPrecheck (cs : ClientState) (now : Int) (info : ApiInfoData) :
    ClientState × List Endpoint :=
  let s1 : ClientState := { cs with requestCount := cs.requestCount + 1 }
  if isCacheOutdated now s1 then refreshCache s1 now info else (s1, [])

/-- Body of `Player._load` (and of the public `Player.load`, which only
delegates to it): resolve the missing key when exactly one of
`playerName` / `uuid` is set, and otherwise throw `GmClientError` before any
network call. -/
def Player.loadFn (lk : PlayerLookups) (cs : ClientState) (now : Int)
    (info : ApiInfoData) (p : Player) :
    Except GMError Player × ClientState × List Endpoint :=
  match p.playerName, p.uuid with
  | some n, none =>
      let r := floatingPrecheck cs now info
      let u := lk.uuidFromPlayername n
      if u = "" then
        (Except.error (GMError.apiError "Could not fetch UUID from API."),
          r.1, r.2 ++ [Endpoint.utilUuid n])
      else
        (Except.ok { p with uuid := some u }, r.1,
          r.2 ++ [Endpoint.utilUuid n])
  | none, some u =>
      let r := floatingPrecheck cs now info
      let n := lk.playernameFromUuid u
      if n = "" then
        (Except.error (GMError.apiError "Could not fetch player name from API."),
          r.1, r.2 ++ [Endpoint.utilPlayername u])
      else
        (Except.ok { p with playerName := some n }, r.1,
          r.2 ++ [Endpoint.utilPlayername u])
  | _, _ =>
      (Except.error (GMError.gmClientError
        "You have not specified a uuid or playerName for the Player object to load."),
        cs, [])

/-- Body of `Player._create`: construct the object with the given keys, and
when the context's lazy flag is false, load it before returning. -/
def Player.createFn (lazy : Bool) (lk : PlayerLookups) (cs : ClientState)
    (now : Int) (info : ApiInfoData) (playerName uuid : Option String) :
    Except GMError Player × ClientState × List Endpoint :=
  let p : Player := ⟨playerName, uuid⟩
  if lazy = false then Player.loadFn lk cs now info p
  else (Except.ok p, cs, [])

/-- The two variants of the `accountType` enumeration in
`bank.ts` (`"Privatkonto"` and `"Firma"`). -/
inductive BankAccountType
  | privatkonto
  | firma
deriving DecidableEq, Repr

/-- A record validated against `BankAccountSchema`
(`BankAccountData` in `bank.ts`). -/
structure BankAccountData where
  accountNumber : String
  balance : Rat
  accountType : BankAccountType
  bearer : String
deriving DecidableEq, Repr

/-- The `BearerType` union of `bank.ts`: a `Player` entity or a raw string. -/
inductive BearerType
  | player (p : Player)
  | name (s : String)
deriving DecidableEq, Repr

/-- A `BankAccount` object: the stable key plus the three optional fields. -/
structure BankAccount where
  accountNumber : String
  balance : Option Rat
  accountType : Option BankAccountType
  bearer : Option BearerType
deriving DecidableEq, Repr

/-- Body of `BankAccount._load` (`bank.ts` lines 78-102): run the quota
precheck with `bypass` unset, then fetch `bank/info`, validate the `account`
payload (`resp` is the oracle for the validated record), assign the three
optional fields, and for a `Privatkonto` build the bearer `Player` through
`Player._create` under the same context (hence the same lazy flag). -/
def BankAccount.loadFn (lazy : Bool) (lk : PlayerLookups) (cs : ClientState)
    (now : Int) (info : ApiInfoData) (resp : BankAccountData)
    (acc : BankAccount) :
    Except GMError BankAccount × ClientState × List Endpoint :=
  match handleOperation cs now info false with
  | (Except.error e, cs1, tr) => (Except.error e, cs1, tr)
  | (Except.ok _, cs1, tr) =>
    let tr1 := tr ++ [Endpoint.bankInfo acc.accountNumber]
    let acc1 : BankAccount :=
      { acc with balance := some resp.balance,
                 accountType := some resp.accountType }
    match resp.accountType with
    | BankAccountType.privatkonto =>
        match Player.createFn lazy lk cs1 now info (some resp.bearer) none with
        | (Except.ok p, cs2, tr2) =>
            (Except.ok { acc1 with bearer := some (BearerType.player p) },
              cs2, tr1 ++ tr2)
        | (Except.error e, cs2, tr2) => (Except.error e, cs2, tr1 ++ tr2)
    | BankAccountType.firma =>
        (Except.ok { acc1 with bearer := some (BearerType.name resp.bearer) },
          cs1, tr1)

/-- Body of `BankAccount._create` (`bank.ts` lines 32-44): construct the
object with only the account number set; when the context's lazy flag is
false, drive it through `_load` before returning. -/
def BankAccount.createFn (accountNumber : String) (lazy : Bool)
    (lk : PlayerLookups) (cs : ClientState) (now : Int) (info : ApiInfoData)
    (resp : BankAccountData) :
    Except GMError BankAccount × ClientState × List Endpoint :=
  let acc : BankAccount := ⟨accountNumber, none, none, none⟩
  if lazy = false then BankAccount.loadFn lazy lk cs now info resp acc
  else (Except.ok acc, cs, [])

/-- Body of `GMClient.bank(accountNumber)` (`client.ts` lines 148-158): build
the context from the client (carrying its `LAZY` flag) and delegate to
`BankAccount._create`. -/
def GMClient.bank (lazy : Bool) (lk : PlayerLookups) (cs : ClientState)
    (now : Int) (info : ApiInfoData) (resp : BankAccountData)
    (accountNumber : String) :
    Except GMError BankAccount × ClientState × List Endpoint :=
  BankAccount.createFn accountNumber lazy lk cs now info resp

/-- Body of `BankAccount._fromSchema` (`bank.ts` lines 46-61): for a
`Privatkonto` the bearer string is used to construct a nested `Player` via
`Player._create` under the same context; otherwise the raw string is kept. -/
def BankAccount.fromSchema (lazy : Bool) (lk : PlayerLookups)
    (cs : ClientState) (now : Int) (info : ApiInfoData)
    (schema : BankAccountData) :
    Except GMError BankAccount × ClientState × List Endpoint :=
  match schema.accountType with
  | BankAccountType.privatkonto =>
      match Player.createFn lazy lk cs now info (some schema.bearer) none with
      | (Except.ok p, cs1, tr) =>
          (Except.ok ⟨schema.accountNumber, some schema.balance,
              some schema.accountType, some (BearerType.player p)⟩,
            cs1, tr)
      | (Except.error e, cs1, tr) => (Except.error e, cs1, tr)
  | BankAccountType.firma =>
      (Except.ok ⟨schema.accountNumber, some schema.balance,
          some schema.accountType, some (BearerType.name schema.bearer)⟩,
        cs, [])

/-- Response shapes of the `bank/list` endpoint relevant here: a JSON array of
records, or a plain object mapping account numbers to records (entries in
insertion order, keys not array-index-like). -/
inductive ListResp
  | arr (items : List BankAccountData)
  | objMap (entries : List (String × BankAccountData))
deriving DecidableEq, Repr

/-- Semantics of `Object.values(data ?? {})` in `BankService.listAll`
(`bank.ts` line 149): on an array it yields the elements in index order, on a
plain object the own enumerable values in insertion order. -/
def objectValues : ListResp → List BankAccountData
  | ListResp.arr items => items
  | ListResp.objMap entries => entries.map Prod.snd

/-- The validation loop of `BankService.listAll`: each item is validated and
turned into a `BankAccount` via `_fromSchema`; the first failure aborts the
whole call. -/
def listAllItems (lazy : Bool) (lk : PlayerLookups) (now : Int)
    (info : ApiInfoData) :
    List BankAccountData → ClientState →
      Except GMError (List BankAccount) × ClientState × List Endpoint
  | [], cs => (Except.ok [], cs, [])
  | d :: rest, cs =>
    match BankAccount.fromSchema lazy lk cs now info d with
    | (Except.error e, cs1, tr1) => (Except.error e, cs1, tr1)
    | (Except.ok a, cs1, tr1) =>
      match listAllItems lazy lk now info rest cs1 with
      | (Except.ok as, cs2, tr2) => (Except.ok (a :: as), cs2, tr1 ++ tr2)
      | (Except.error e, cs2, tr2) => (Except.error e, cs2, tr1 ++ tr2)

/-- Body of `BankService.listAll` (`bank.ts` lines 136-164): quota precheck
with `bypass` unset, one fetch of `bank/list`, then iterate over
`Object.values` of the response. -/
def BankService.listAll (lazy : Bool) (lk : PlayerLookups) (cs : ClientState)
    (now : Int) (info : ApiInfoData) (resp : ListResp) :
    Except GMError (List BankAccount) × ClientState × List Endpoint :=
  match handleOperation cs now info false with
  | (Except.error e, cs1, tr) => (Except.error e, cs1, tr)
  | (Except.ok _, cs1, tr) =>
    match listAllItems lazy lk now info (objectValues resp) cs1 with
    | (r, cs2, tr2) => (r, cs2, (tr ++ [Endpoint.bankList]) ++ tr2)

/-- A JSON value in a quota-info payload field: a number (JSON numbers are
modelled as rationals) or a string. -/
inductive JVal
  | num (q : Rat)
  | str (s : String)
deriving DecidableEq, Repr

/-- Raw quota-info payload as seen by `ApiInfo.parseAsync`: each of the three
keys may be absent (`none`) or hold a JSON value.  Zod's non-strict object
parsing ignores any further keys, so they are not modelled. -/
structure ApiInfoPayload where
  limit : Option JVal
  requests : Option JVal
  outstandingCosts : Option JVal
deriving DecidableEq, Repr

/-- Semantics of the field validator `z.number().int().nonnegative()`. -/
def zNumIntNonneg : Option JVal → Option Int
  | some (JVal.num q) => if q.den = 1 ∧ 0 ≤ q then some q.num else none
  | _ => none

/-- Semantics of the field validator `z.number().int().positive()`. -/
def zNumIntPos : Option JVal → Option Int
  | some (JVal.num q) => if q.den = 1 ∧ 0 < q then some q.num else none
  | _ => none

/-- Semantics of the field validator `z.number().nonnegative()`. -/
def zNumNonneg : Option JVal → Option Rat
  | some (JVal.num q) => if 0 ≤ q then some q else none
  | _ => none

/-- The `ApiInfo` object schema of `api-info.ts` (lines 9-13):
`limit: z.number().int().nonnegative()`, `requests: z.number().int().positive()`,
`outstandingCosts: z.number().nonnegative()`.  `none` is a validation
failure. -/
def ApiInfoParse (p : ApiInfoPayload) : Option ApiInfoData :=
  match zNumIntNonneg p.limit, zNumIntPos p.requests,
        zNumNonneg p.outstandingCosts with
  | some l, some r, some c => some ⟨l, r, c⟩
  | _, _, _ => none

/-- Discipline actually obeyed by the quota-cache fields across the client's
operations: the cached limit (and the ghost last-fetched snapshot) change only
when a quota-info fetch appears in the operation's trace, and then to the
fetched values; the cached request count either grows by some number of local
unit increments, or is reset to the fetched `requests` (plus increments that
follow) when a quota-info fetch occurred. -/
def quotaCacheDiscipline (s : ClientState) (info : ApiInfoData)
    (s' : ClientState) (tr : List Endpoint) : Prop :=
  (s'.REQ_LIMIT = s.REQ_LIMIT ∨
    (Endpoint.apiInfo ∈ tr ∧ s'.REQ_LIMIT = info.limit)) ∧
  (s'.lastFetched = s.lastFetched ∨
    (Endpoint.apiInfo ∈ tr ∧ s'.lastFetched = info)) ∧
  (∃ k : Nat, s'.requestCount = s.requestCount + k ∨
    (Endpoint.apiInfo ∈ tr ∧ s'.requestCount = info.requests + k))

/-- Modelled from the spec sentence `remainingRequests() -> int: refreshes the
cache if stale, then returns limit - requests`; stated only for comparison
with the implementation `getRemainingRequests`. -/
def getRemainingRequestsSpecModel (s : ClientState) (now : Int)
    (info : ApiInfoData) : Int × ClientState × List Endpoint :=
  let r := if isCacheOutdated now s then refreshCache s now info else (s, [])
  (r.1.REQ_LIMIT - r.1.requestCount, r.1, r.2)

/-- A `BankAccount` object carries the data of a validated record: same
account number, balance and account type, and a bearer that reflects the
record's bearer string (as a nested `Player` for a `Privatkonto`, as the raw
string for a `Firma`). -/
def carriesData (d : BankAccountData) (a : BankAccount) : Bool :=
  a.accountNumber == d.accountNumber && a.balance == some d.balance &&
  a.accountType == some d.accountType &&
  (match a.bearer with
   | some (BearerType.name s) =>
      d.accountType == BankAccountType.firma && s == d.bearer
   | some (BearerType.player p) =>
      d.accountType == BankAccountType.privatkonto &&
        p.playerName == some d.bearer
   | none => false)

theorem qcd_refl (s : ClientState) (info : ApiInfoData) (tr : List Endpoint) :
    quotaCacheDiscipline s info s tr :=
  ⟨Or.inl rfl, Or.inl rfl, ⟨0, Or.inl (by simp)⟩⟩

theorem qcd_incr (s : ClientState) (info : ApiInfoData) (tr : List Endpoint) :
    quotaCacheDiscipline s info
      { s with requestCount := s.requestCount + 1 } tr :=
  ⟨Or.inl rfl, Or.inl rfl, ⟨1, Or.inl (by simp)⟩⟩

theorem qcd_trans (s s1 s2 : ClientState) (info : ApiInfoData)
    (tr1 tr2 tr : List Endpoint)
    (h1 : quotaCacheDiscipline s info s1 tr1)
    (h2 : quotaCacheDiscipline s1 info s2 tr2)
    (m1 : ∀ e, e ∈ tr1 → e ∈ tr) (m2 : ∀ e, e ∈ tr2 → e ∈ tr) :
    quotaCacheDiscipline s info s2 tr := by
  obtain ⟨l1, f1, k1, c1⟩ := h1
  obtain ⟨l2, f2, k2, c2⟩ := h2
  refine ⟨?_, ?_, ?_⟩
  · rcases l2 with h | ⟨hm, hv⟩
    · rcases l1 with h1' | ⟨hm1, hv1⟩
      · exact Or.inl (h.trans h1')
      · exact Or.inr ⟨m1 _ hm1, h.trans hv1⟩
    · exact Or.inr ⟨m2 _ hm, hv⟩
  · rcases f2 with h | ⟨hm, hv⟩
    · rcases f1 with h1' | ⟨hm1, hv1⟩
      · exact Or.inl (h.trans h1')
      · exact Or.inr ⟨m1 _ hm1, h.trans hv1⟩
    · exact Or.inr ⟨m2 _ hm, hv⟩
  · rcases c2 with h | ⟨hm, hv⟩
    · rcases c1 with h1' | ⟨hm1, hv1⟩
      · exact ⟨k1 + k2, Or.inl (by omega)⟩
      · exact ⟨k1 + k2, Or.inr ⟨m1 _ hm1, by omega⟩⟩
    · exact ⟨k2, Or.inr ⟨m2 _ hm, hv⟩⟩

theorem qcd_refreshCache (s : ClientState) (now : Int) (info : ApiInfoData) :
    quotaCacheDiscipline s info (refreshCache s now info).1
      (refreshCache s now info).2 := by
  refine ⟨Or.inr ⟨?_, rfl⟩, Or.inr ⟨?_, rfl⟩, ⟨0, Or.inr ⟨?_, ?_⟩⟩⟩ <;>
    simp [refreshCache, getApiInfoBypass]

theorem qcd_handleOperation (s : ClientState) (now : Int) (info : ApiInfoData)
    (b : Bool) :
    quotaCacheDiscipline s info (handleOperation s now info b).2.1
      (handleOperation s now info b).2.2 := by
  by_cases hb : b = true
  · simp [handleOperation, hb]
    exact qcd_incr s info []
  · by_cases hc : isCacheOutdated now
        { s with requestCount := s.requestCount + 1 } = true
    · have key : quotaCacheDiscipline s info
          (refreshCache { s with requestCount := s.requestCount + 1 } now info).1
          (refreshCache { s with requestCount := s.requestCount + 1 } now info).2 :=
        qcd_trans s _ _ info [] _ _ (qcd_incr s info [])
          (qcd_refreshCache _ now info) (by simp) (fun e he => he)
      by_cases hl : isLimitReachedFn
          (refreshCache { s with requestCount := s.requestCount + 1 } now info).1 = true <;>
        simp [handleOperation, hb, hc, hl] <;> exact key
    · by_cases hl : isLimitReachedFn
          { s with requestCount := s.requestCount + 1 } = true <;>
        simp [handleOperation, hb, hc, hl] <;> exact qcd_incr s info []

theorem qcd_mono (s s' : ClientState) (info : ApiInfoData)
    (tr tr' : List Endpoint) (h : quotaCacheDiscipline s info s' tr)
    (m : ∀ e, e ∈ tr → e ∈ tr') : quotaCacheDiscipline s info s' tr' :=
  qcd_trans s s' s' info tr [] tr' h (qcd_refl s' info []) m (by simp)

theorem qcd_floatingPrecheck (cs : ClientState) (now : Int)
    (info : ApiInfoData) :
    quotaCacheDiscipline cs info (floatingPrecheck cs now info).1
      (floatingPrecheck cs now info).2 := by
  by_cases hc : isCacheOutdated now
      { cs with requestCount := cs.requestCount + 1 } = true <;>
    simp [floatingPrecheck, hc]
  · exact qcd_trans cs _ _ info [] _ _ (qcd_incr cs info [])
      (qcd_refreshCache _ now info) (by simp) (fun e he => he)
  · exact qcd_incr cs info []

theorem qcd_playerLoad (lk : PlayerLookups) (cs : ClientState) (now : Int)
    (info : ApiInfoData) (p : Player) :
    quotaCacheDiscipline cs info (Player.loadFn lk cs now info p).2.1
      (Player.loadFn lk cs now info p).2.2 := by
  obtain ⟨pn, pu⟩ := p
  have hfp := qcd_floatingPrecheck cs now info
  rcases pn with _ | n <;> rcases pu with _ | u
  · simp [Player.loadFn]; exact qcd_refl cs info []
  · by_cases h : lk.playernameFromUuid u = "" <;> simp [Player.loadFn, h] <;>
      exact qcd_mono cs _ info _ _ hfp (by intro e he; simp [he])
  · by_cases h : lk.uuidFromPlayername n = "" <;> simp [Player.loadFn, h] <;>
      exact qcd_mono cs _ info _ _ hfp (by intro e he; simp [he])
  · simp [Player.loadFn]; exact qcd_refl cs info []

theorem qcd_playerCreate (lazy : Bool) (lk : PlayerLookups) (cs : ClientState)
    (now : Int) (info : ApiInfoData) (pn pu : Option String) :
    quotaCacheDiscipline cs info
      (Player.createFn lazy lk cs now info pn pu).2.1
      (Player.createFn lazy lk cs now info pn pu).2.2 := by
  by_cases h : lazy = false <;> simp [Player.createFn, h]
  · exact qcd_playerLoad lk cs now info ⟨pn, pu⟩
  · exact qcd_refl cs info []

theorem qcd_fromSchema (lazy : Bool) (lk : PlayerLookups) (cs : ClientState)
    (now : Int) (info : ApiInfoData) (d : BankAccountData) :
    quotaCacheDiscipline cs info
      (BankAccount.fromSchema lazy lk cs now info d).2.1
      (BankAccount.fromSchema lazy lk cs now info d).2.2 := by
  have hpc := qcd_playerCreate lazy lk cs now info (some d.bearer) none
  rcases hA : d.accountType with _ | _ <;> simp [BankAccount.fromSchema, hA]
  · rcases hP : Player.createFn lazy lk cs now info (some d.bearer) none
      with ⟨pres, cs1, tr1⟩
    rw [hP] at hpc
    cases pres <;> simp [hP] <;> exact hpc
  · exact qcd_refl cs info []

theorem qcd_bankLoad (lazy : Bool) (lk : PlayerLookups) (cs : ClientState)
    (now : Int) (info : ApiInfoData) (resp : BankAccountData)
    (acc : BankAccount) :
    quotaCacheDiscipline cs info
      (BankAccount.loadFn lazy lk cs now info resp acc).2.1
      (BankAccount.loadFn lazy lk cs now info resp acc).2.2 := by
  have hho := qcd_handleOperation cs now info false
  rcases hE : handleOperation cs now info false with ⟨res, cs1, tr⟩
  rw [hE] at hho
  cases res with
  | error e => simp [BankAccount.loadFn, hE]; exact hho
  | ok _ =>
    have hpc := qcd_playerCreate lazy lk cs1 now info (some resp.bearer) none
    rcases hA : resp.accountType with _ | _ <;>
      simp [BankAccount.loadFn, hE, hA]
    · rcases hP : Player.createFn lazy lk cs1 now info (some resp.bearer) none
        with ⟨pres, cs2, tr2⟩
      rw [hP] at hpc
      cases pres <;> simp [hP] <;>
        exact qcd_trans cs cs1 cs2 info tr tr2 _ hho hpc
          (by intro e he; simp [he]) (by intro e he; simp [he])
    · exact qcd_mono cs cs1 info tr _ hho (by intro e he; simp [he])

theorem qcd_bankCreate (accountNumber : String) (lazy : Bool)
    (lk : PlayerLookups) (cs : ClientState) (now : Int) (info : ApiInfoData)
    (resp : BankAccountData) :
    quotaCacheDiscipline cs info
      (BankAccount.createFn accountNumber lazy lk cs now info resp).2.1
      (BankAccount.createFn accountNumber lazy lk cs now info resp).2.2 := by
  cases lazy with
  | false =>
      simp [BankAccount.createFn]
      exact qcd_bankLoad false lk cs now info resp
        ⟨accountNumber, none, none, none⟩
  | true => simp [BankAccount.createFn]; exact qcd_refl cs info []

theorem qcd_listAllItems (lazy : Bool) (lk : PlayerLookups) (now : Int)
    (info : ApiInfoData) (ds : List BankAccountData) (cs : ClientState) :
    quotaCacheDiscipline cs info (listAllItems lazy lk now info ds cs).2.1
      (listAllItems lazy lk now info ds cs).2.2 := by
  induction ds generalizing cs with
  | nil => simp [listAllItems]; exact qcd_refl cs info []
  | cons d rest ih =>
    have hfs := qcd_fromSchema lazy lk cs now info d
    rcases hF : BankAccount.fromSchema lazy lk cs now info d
      with ⟨fres, cs1, tr1⟩
    rw [hF] at hfs
    cases fres with
    | error e => simp [listAllItems, hF]; exact hfs
    | ok a =>
      have hrest := ih cs1
      rcases hR : listAllItems lazy lk now info rest cs1 with ⟨rres, cs2, tr2⟩
      rw [hR] at hrest
      cases rres <;> simp [listAllItems, hF, hR] <;>
        exact qcd_trans cs cs1 cs2 info tr1 tr2 _ hfs hrest
          (by intro e he; simp [he]) (by intro e he; simp [he])

theorem qcd_listAll (lazy : Bool) (lk : PlayerLookups) (cs : ClientState)
    (now : Int) (info : ApiInfoData) (resp : ListResp) :
    quotaCacheDiscipline cs info
      (BankService.listAll lazy lk cs now info resp).2.1
      (BankService.listAll lazy lk cs now info resp).2.2 := by
  have hho := qcd_handleOperation cs now info false
  rcases hE : handleOperation cs now info false with ⟨res, cs1, tr⟩
  rw [hE] at hho
  cases res with
  | error e => simp [BankService.listAll, hE]; exact hho
  | ok _ =>
    have hit := qcd_listAllItems lazy lk now info (objectValues resp) cs1
    rcases hI : listAllItems lazy lk now info (objectValues resp) cs1
      with ⟨rres, cs2, tr2⟩
    rw [hI] at hit
    simp [BankService.listAll, hE, hI]
    exact qcd_trans cs cs1 cs2 info tr tr2 _ hho hit
      (by intro e he; simp [he]) (by intro e he; simp [he])

theorem qcd_getApiInfo (s : ClientState) (now : Int) (info fetched : ApiInfoData)
    (b : Bool) :
    quotaCacheDiscipline s info (getApiInfo s now info fetched b).2.1
      (getApiInfo s now info fetched b).2.2 := by
  have hho := qcd_handleOperation s now info b
  rcases hE : handleOperation s now info b with ⟨res, s1, tr⟩
  rw [hE] at hho
  cases res <;> simp [getApiInfo, hE] <;>
    exact qcd_mono s s1 info tr _ hho (by intro e he; simp [he])

theorem refreshCache_eq (s : ClientState) (now : Int) (info : ApiInfoData) :
    refreshCache s now info =
      (⟨info.limit, info.requests, now, info⟩, [Endpoint.apiInfo]) := rfl

theorem handleOperation_fresh_ok (s : ClientState) (now : Int)
    (info : ApiInfoData) (hfresh : now - s.lastUpdated ≤ MAX_CACHE_LIFETIME)
    (hlim : s.requestCount + 1 < s.REQ_LIMIT) :
    handleOperation s now info false =
      (Except.ok (), { s with requestCount := s.requestCount + 1 }, []) := by
  have h1 : isCacheOutdated now
      { s with requestCount := s.requestCount + 1 } = false := by
    simp [isCacheOutdated]; omega
  have h2 : isLimitReachedFn
      { s with requestCount := s.requestCount + 1 } = false := by
    simp [isLimitReachedFn]; omega
  simp [handleOperation, h1, h2]

theorem handleOperation_fresh_limit (s : ClientState) (now : Int)
    (info : ApiInfoData) (hfresh : now - s.lastUpdated ≤ MAX_CACHE_LIFETIME)
    (hlim : s.REQ_LIMIT ≤ s.requestCount + 1) :
    handleOperation s now info false =
      (Except.error (GMError.limitReached (s.requestCount + 1) s.REQ_LIMIT),
        { s with requestCount := s.requestCount + 1 }, []) := by
  have h1 : isCacheOutdated now
      { s with requestCount := s.requestCount + 1 } = false := by
    simp [isCacheOutdated]; omega
  have h2 : isLimitReachedFn
      { s with requestCount := s.requestCount + 1 } = true := by
    simp [isLimitReachedFn]; omega
  simp [handleOperation, h1, h2]

theorem handleOperation_stale_ok (s : ClientState) (now : Int)
    (info : ApiInfoData) (hstale : now - s.lastUpdated > MAX_CACHE_LIFETIME)
    (hlim : info.requests < info.limit) :
    handleOperation s now info false =
      (Except.ok (), ⟨info.limit, info.requests, now, info⟩,
        [Endpoint.apiInfo]) := by
  have h1 : isCacheOutdated now
      { s with requestCount := s.requestCount + 1 } = true := by
    simp [isCacheOutdated]; omega
  have h2 : isLimitReachedFn
      (⟨info.limit, info.requests, now, info⟩ : ClientState) = false := by
    simp [isLimitReachedFn]; omega
  simp [handleOperation, h1, refreshCache_eq, h2]

theorem handleOperation_stale_limit (s : ClientState) (now : Int)
    (info : ApiInfoData) (hstale : now - s.lastUpdated > MAX_CACHE_LIFETIME)
    (hlim : info.limit ≤ info.requests) :
    handleOperation s now info false =
      (Except.error (GMError.limitReached info.requests info.limit),
        ⟨info.limit, info.requests, now, info⟩, [Endpoint.apiInfo]) := by
  have h1 : isCacheOutdated now
      { s with requestCount := s.requestCount + 1 } = true := by
    simp [isCacheOutdated]; omega
  have h2 : isLimitReachedFn
      (⟨info.limit, info.requests, now, info⟩ : ClientState) = true := by
    simp [isLimitReachedFn]; omega
  simp [handleOperation, h1, refreshCache_eq, h2]

theorem handleOperation_trace (s : ClientState) (now : Int)
    (info : ApiInfoData) (b : Bool) :
    (handleOperation s now info b).2.2 = [] ∨
    (handleOperation s now info b).2.2 = [Endpoint.apiInfo] := by
  by_cases hb : b = true
  · simp [handleOperation, hb]
  · have hb' : b = false := by cases b <;> simp_all
    rw [hb']
    by_cases hst : now - s.lastUpdated > MAX_CACHE_LIFETIME
    · by_cases hlim : info.limit ≤ info.requests
      · rw [handleOperation_stale_limit s now info hst hlim]; simp
      · rw [handleOperation_stale_ok s now info hst (by omega)]; simp
    · by_cases hlim : s.REQ_LIMIT ≤ s.requestCount + 1
      · rw [handleOperation_fresh_limit s now info (by omega) hlim]; simp
      · rw [handleOperation_fresh_ok s now info (by omega) (by omega)]; simp

theorem handleOperation_error_shape (s : ClientState) (now : Int)
    (info : ApiInfoData) (b : Bool) (e : GMError) (s' : ClientState)
    (tr : List Endpoint)
    (h : handleOperation s now info b = (Except.error e, s', tr)) :
    e = GMError.limitReached s'.requestCount s'.REQ_LIMIT := by
  by_cases hb : b = true
  · rw [hb] at h; simp [handleOperation] at h
  · have hb' : b = false := by cases b <;> simp_all
    rw [hb'] at h
    by_cases hst : now - s.lastUpdated > MAX_CACHE_LIFETIME
    · by_cases hlim : info.limit ≤ info.requests
      · rw [handleOperation_stale_limit s now info hst hlim] at h
        injection h with h1 h2
        injection h2 with h2 h3
        injection h1 with h1
        subst h2
        exact h1.symm
      · rw [handleOperation_stale_ok s now info hst (by omega)] at h
        simp at h
    · by_cases hlim : s.REQ_LIMIT ≤ s.requestCount + 1
      · rw [handleOperation_fresh_limit s now info (by omega) hlim] at h
        injection h with h1 h2
        injection h2 with h2 h3
        injection h1 with h1
        subst h2
        exact h1.symm
      · rw [handleOperation_fresh_ok s now info (by omega) (by omega)] at h
        simp at h

/-- C1 counterexample to the claim as stated: a `BankAccount` load with a
fresh cache performs no quota-info fetch, yet it changes the cached request
count (3 becomes 4): the per-call counting is done on the cached
`#requestCount` itself, not on a separate advisory counter. -/
theorem C1_counterexample :
    let s : ClientState := ⟨10, 3, 0, ⟨10, 3, 0⟩⟩
    let r := BankAccount.loadFn true ⟨fun _ => "u", fun _ => "n"⟩ s 0
      ⟨10, 3, 0⟩ ⟨"ACC1", 5, BankAccountType.firma, "Corp"⟩
      ⟨"ACC1", none, none, none⟩
    r.2.1.requestCount = 4 ∧ s.requestCount = 3 ∧
      Endpoint.apiInfo ∉ r.2.2 := by decide

/-- C1 (amended): across every modelled operation of the client, the cached
limit `#REQ_LIMIT` (and the last snapshot stored) changes only when the
operation performed a quota-info fetch, and then to the fetched value; the
cached request count `#requestCount`, however, is not only assigned from
fetches: it is the very field that is incremented once per outgoing call as
the advisory counter, so it evolves by local unit increments or is reset to
the fetched `requests` value (plus subsequent increments). -/
theorem C1_quota_cache_assignment (lazy b : Bool) (lk : PlayerLookups)
    (s : ClientState) (now : Int) (info fetched : ApiInfoData)
    (resp : BankAccountData) (lresp : ListResp) (accountNumber : String)
    (acc : BankAccount) (p : Player) (pn pu : Option String) :
    quotaCacheDiscipline s info (handleOperation s now info b).2.1
      (handleOperation s now info b).2.2 ∧
    quotaCacheDiscipline s info (getApiInfo s now info fetched b).2.1
      (getApiInfo s now info fetched b).2.2 ∧
    quotaCacheDiscipline s info (isLimitReachedOp s).2.1
      (isLimitReachedOp s).2.2 ∧
    quotaCacheDiscipline s info (getRemainingRequests s).2.1
      (getRemainingRequests s).2.2 ∧
    quotaCacheDiscipline s info
      (GMClient.bank lazy lk s now info resp accountNumber).2.1
      (GMClient.bank lazy lk s now info resp accountNumber).2.2 ∧
    quotaCacheDiscipline s info
      (BankAccount.loadFn lazy lk s now info resp acc).2.1
      (BankAccount.loadFn lazy lk s now info resp acc).2.2 ∧
    quotaCacheDiscipline s info
      (BankService.listAll lazy lk s now info lresp).2.1
      (BankService.listAll lazy lk s now info lresp).2.2 ∧
    quotaCacheDiscipline s info (Player.loadFn lk s now info p).2.1
      (Player.loadFn lk s now info p).2.2 ∧
    quotaCacheDiscipline s info
      (Player.createFn lazy lk s now info pn pu).2.1
      (Player.createFn lazy lk s now info pn pu).2.2 :=
  ⟨qcd_handleOperation s now info b, qcd_getApiInfo s now info fetched b,
    qcd_refl s info [], qcd_incr s info [],
    qcd_bankCreate accountNumber lazy lk s now info resp,
    qcd_bankLoad lazy lk s now info resp acc,
    qcd_listAll lazy lk s now info lresp,
    qcd_playerLoad lk s now info p,
    qcd_playerCreate lazy lk s now info pn pu⟩

/-- C5 (amended): `isLimitReached()` returns exactly the comparison of the
cached `#requestCount` — which includes the local advisory increments made
since the last fetch — against the cached `#REQ_LIMIT`; it performs no cache
refresh, hits no endpoint and leaves the client state unchanged. -/
theorem C5_isLimitReached_pure (s : ClientState) :
    isLimitReachedOp s = (decide (s.requestCount ≥ s.REQ_LIMIT), s, []) := rfl

/-- C5 counterexample to the claim as stated: after a refresh that fetched
`requests = 9, limit = 10` and one precheck (which increments the cached
count to 10), `isLimitReached()` returns true although the last-fetched
snapshot still has `requests = 9 < 10 = limit`. -/
theorem C5_counterexample :
    let info : ApiInfoData := ⟨10, 9, 0⟩
    let s0 := (refreshCache ⟨0, 0, 0, ⟨0, 0, 0⟩⟩ 0 info).1
    let s1 := (handleOperation s0 0 info false).2.1
    isLimitReachedFn s1 = true ∧
      s1.lastFetched.requests < s1.lastFetched.limit := by decide

/-- C10: calling `load()` on a `Player` whose `playerName` and `uuid` are both
set throws `GmClientError` before any network call and leaves the client
state untouched; a lookup endpoint is only ever hit when exactly one of the
two keys is set. -/
theorem C10_player_load_both_keys (lk : PlayerLookups) (cs : ClientState)
    (now : Int) (info : ApiInfoData) (p : Player) (n u : String)
    (hn : p.playerName = some n) (hu : p.uuid = some u) :
    Player.loadFn lk cs now info p =
      (Except.error (GMError.gmClientError
        "You have not specified a uuid or playerName for the Player object to load."),
        cs, []) ∧
    (∀ q : Player, (Player.loadFn lk cs now info q).2.2 ≠ [] →
      (q.playerName.isSome = true ∧ q.uuid = none) ∨
      (q.playerName = none ∧ q.uuid.isSome = true)) := by
  constructor
  · obtain ⟨pn, pu⟩ := p
    simp only at hn hu
    subst hn; subst hu
    rfl
  · intro q hq
    obtain ⟨qn, qu⟩ := q
    rcases qn with _ | a <;> rcases qu with _ | c
    · simp [Player.loadFn] at hq
    · right; simp
    · left; simp
    · simp [Player.loadFn] at hq

theorem C10_player_load_both_keys_witness :
    Player.loadFn ⟨fun _ => "uuid1", fun _ => "name1"⟩ ⟨10, 0, 0, ⟨10, 0, 0⟩⟩
        0 ⟨10, 0, 0⟩ ⟨some "Steve", some "abcd"⟩ =
      (Except.error (GMError.gmClientError
        "You have not specified a uuid or playerName for the Player object to load."),
        ⟨10, 0, 0, ⟨10, 0, 0⟩⟩, []) :=
  (C10_player_load_both_keys ⟨fun _ => "uuid1", fun _ => "name1"⟩
    ⟨10, 0, 0, ⟨10, 0, 0⟩⟩ 0 ⟨10, 0, 0⟩ ⟨some "Steve", some "abcd"⟩
    "Steve" "abcd" rfl rfl).1

/-- C4, the code evaluated at the failing input: with cache
`limit = 10, requests = 3` last refreshed at time 0, called at time 700000
(stale) while the server would report `requests = 5`:
`getRemainingRequests` starts `refreshCache()` without awaiting it, so it
returns `10 - (3 + 1) = 6` computed from the stale cache (still stale at the
moment of return, no fetch issued yet), whereas the specified behaviour
(refresh, then `limit - requests`) yields 5; the orphaned refresh only
afterwards sets the cached count to 5. -/
theorem C4_getRemainingRequests_stale_cache :
    let s : ClientState := ⟨10, 3, 0, ⟨10, 3, 0⟩⟩
    let r := getRemainingRequests s
    let m := getRemainingRequestsSpecModel s 700000 ⟨10, 5, 0⟩
    r.1 = 6 ∧ r.2.2 = [] ∧ r.2.1.lastUpdated = 0 ∧
      isCacheOutdated 700000 r.2.1 = true ∧ m.1 = 5 ∧ r.1 ≠ m.1 ∧
      (getRemainingRequestsAfter r.2.1 700000 ⟨10, 5, 0⟩).1.requestCount = 5 := by
  decide

theorem zNumIntNonneg_some (x : Option JVal) (l : Int)
    (h : zNumIntNonneg x = some l) :
    ∃ q : Rat, x = some (JVal.num q) ∧ q.den = 1 ∧ 0 ≤ q ∧ l = q.num := by
  rcases x with _ | v
  · simp [zNumIntNonneg] at h
  rcases v with q | str
  · by_cases hq : q.den = 1 ∧ 0 ≤ q
    · refine ⟨q, rfl, hq.1, hq.2, ?_⟩
      simp only [zNumIntNonneg, if_pos hq] at h
      exact (Option.some.injEq _ _ ▸ h).symm
    · simp only [zNumIntNonneg, if_neg hq] at h
      exact absurd h (by simp)
  · simp [zNumIntNonneg] at h

theorem zNumIntPos_some (x : Option JVal) (l : Int)
    (h : zNumIntPos x = some l) :
    ∃ q : Rat, x = some (JVal.num q) ∧ q.den = 1 ∧ 0 < q ∧ l = q.num := by
  rcases x with _ | v
  · simp [zNumIntPos] at h
  rcases v with q | str
  · by_cases hq : q.den = 1 ∧ 0 < q
    · refine ⟨q, rfl, hq.1, hq.2, ?_⟩
      simp only [zNumIntPos, if_pos hq] at h
      exact (Option.some.injEq _ _ ▸ h).symm
    · simp only [zNumIntPos, if_neg hq] at h
      exact absurd h (by simp)
  · simp [zNumIntPos] at h

theorem zNumNonneg_some (x : Option JVal) (c : Rat)
    (h : zNumNonneg x = some c) :
    ∃ q : Rat, x = some (JVal.num q) ∧ 0 ≤ q ∧ c = q := by
  rcases x with _ | v
  · simp [zNumNonneg] at h
  rcases v with q | str
  · by_cases hq : (0 : Rat) ≤ q
    · refine ⟨q, rfl, hq, ?_⟩
      simp only [zNumNonneg, if_pos hq] at h
      exact (Option.some.injEq _ _ ▸ h).symm
    · simp only [zNumNonneg, if_neg hq] at h
      exact absurd h (by simp)
  · simp [zNumNonneg] at h

/-- C8 counterexample to the claim as stated: the payload with
`limit = 100`, `requests = 0`, `outstandingCosts = 0` has a non-negative
integer in every counter field, yet validation rejects it, because the schema
requires `requests` to be strictly positive (`z.number().int().positive()`),
not merely non-negative. -/
theorem C8_counterexample :
    ApiInfoParse ⟨some (JVal.num 100), some (JVal.num 0), some (JVal.num 0)⟩ =
      none ∧
    (0 : Rat).den = 1 ∧ (0 : Rat) ≤ 0 := by decide

/-- C8 (amended): quota-info validation accepts exactly the payloads whose
`limit` is a non-negative integer, whose `requests` is a strictly POSITIVE
integer, and whose `outstandingCosts` is a non-negative number, yielding a
snapshot with those exact three field values; a payload missing `limit` fails
validation. -/
theorem C8_apiInfo_validation (lq rq cq : Rat) (hld : lq.den = 1)
    (hl0 : 0 ≤ lq) (hrd : rq.den = 1) (hr0 : 0 < rq) (hc0 : 0 ≤ cq) :
    ApiInfoParse ⟨some (JVal.num lq), some (JVal.num rq), some (JVal.num cq)⟩ =
      some ⟨lq.num, rq.num, cq⟩ ∧
    (∀ r o, ApiInfoParse ⟨none, r, o⟩ = none) ∧
    (∀ p d, ApiInfoParse p = some d →
      ∃ l r c : Rat, p.limit = some (JVal.num l) ∧
        p.requests = some (JVal.num r) ∧
        p.outstandingCosts = some (JVal.num c) ∧
        l.den = 1 ∧ 0 ≤ l ∧ r.den = 1 ∧ 0 < r ∧ 0 ≤ c ∧
        d = ⟨l.num, r.num, c⟩) := by
  refine ⟨?_, ?_, ?_⟩
  · simp only [ApiInfoParse, zNumIntNonneg, zNumIntPos, zNumNonneg,
      if_pos (And.intro hld hl0), if_pos (And.intro hrd hr0), if_pos hc0]
  · intro r o
    simp [ApiInfoParse, zNumIntNonneg]
  · intro p d h
    obtain ⟨pl, pr, pc⟩ := p
    rcases hL : zNumIntNonneg pl with _ | l
    · simp [ApiInfoParse, hL] at h
    rcases hR : zNumIntPos pr with _ | r0
    · simp [ApiInfoParse, hL, hR] at h
    rcases hC : zNumNonneg pc with _ | c0
    · simp [ApiInfoParse, hL, hR, hC] at h
    simp only [ApiInfoParse, hL, hR, hC, Option.some.injEq] at h
    obtain ⟨ql, hql, hqld, hql0, hlv⟩ := zNumIntNonneg_some pl l hL
    obtain ⟨qr, hqr, hqrd, hqr0, hrv⟩ := zNumIntPos_some pr r0 hR
    obtain ⟨qc, hqc, hqc0, hcv⟩ := zNumNonneg_some pc c0 hC
    exact ⟨ql, qr, qc, hql, hqr, hqc, hqld, hql0, hqrd, hqr0, hqc0,
      by rw [← h, hlv, hrv, hcv]⟩

theorem C8_apiInfo_validation_witness :
    ApiInfoParse ⟨some (JVal.num 100), some (JVal.num 42), some (JVal.num 0)⟩ =
      some ⟨100, 42, 0⟩ :=
  ((C8_apiInfo_validation 100 42 0 (by decide) (by decide) (by decide)
    (by decide) (by decide)).1).trans (by decide)

/-- C3 counterexample to the claim as stated: with a cached snapshot 0 ms old
(well inside the ten-minute TTL) and `forceRefresh` false, `getApiInfo` still
performs a remote `api/info` fetch — the cache never serves the snapshot. -/
theorem C3_counterexample :
    (getApiInfo ⟨10, 3, 1000, ⟨10, 3, 0⟩⟩ 1000 ⟨10, 3, 0⟩ ⟨10, 4, 0⟩
      false).2.2 = [Endpoint.apiInfo] := by decide

/-- C3 (amended): `getApiInfo` performs a remote `api/info` fetch on every
call that passes the precheck, regardless of `ignoreCache` and of the cache's
age; the returned snapshot is always the freshly fetched one.  The TTL only
decides whether the precheck additionally refreshes the quota cache first, in
which case a stale-cache call that passes the guard performs two remote
fetches. -/
theorem C3_getApiInfo_always_fetches (s : ClientState) (now : Int)
    (info fetched : ApiInfoData) (b : Bool) :
    (∀ a, (getApiInfo s now info fetched b).1 = Except.ok a →
      a = fetched ∧ Endpoint.apiInfo ∈ (getApiInfo s now info fetched b).2.2) ∧
    (b = true → getApiInfo s now info fetched b =
      (Except.ok fetched, { s with requestCount := s.requestCount + 1 },
        [Endpoint.apiInfo])) ∧
    (b = false → now - s.lastUpdated ≤ MAX_CACHE_LIFETIME →
      s.requestCount + 1 < s.REQ_LIMIT →
      getApiInfo s now info fetched b =
        (Except.ok fetched, { s with requestCount := s.requestCount + 1 },
          [Endpoint.apiInfo])) ∧
    (b = false → now - s.lastUpdated > MAX_CACHE_LIFETIME →
      info.requests < info.limit →
      (getApiInfo s now info fetched b).2.2 =
        [Endpoint.apiInfo, Endpoint.apiInfo]) := by
  refine ⟨?_, ?_, ?_, ?_⟩
  · intro a ha
    rcases hE : handleOperation s now info b with ⟨res, s1, tr⟩
    cases res with
    | error e => simp [getApiInfo, hE] at ha
    | ok _ =>
      simp only [getApiInfo, hE, Except.ok.injEq] at ha
      subst ha
      exact ⟨rfl, by simp [getApiInfo, hE]⟩
  · intro hb
    subst hb
    simp [getApiInfo, handleOperation]
  · intro hb h1 h2
    subst hb
    simp [getApiInfo, handleOperation_fresh_ok s now info h1 h2]
  · intro hb h1 h2
    subst hb
    simp [getApiInfo, handleOperation_stale_ok s now info h1 h2]

theorem C3_getApiInfo_always_fetches_witness :
    getApiInfo ⟨10, 3, 0, ⟨10, 3, 0⟩⟩ 0 ⟨10, 3, 0⟩ ⟨10, 4, 0⟩ false =
      (Except.ok ⟨10, 4, 0⟩, ⟨10, 4, 0, ⟨10, 3, 0⟩⟩, [Endpoint.apiInfo]) :=
  (C3_getApiInfo_always_fetches ⟨10, 3, 0, ⟨10, 3, 0⟩⟩ 0 ⟨10, 3, 0⟩
    ⟨10, 4, 0⟩ false).2.2.1 rfl (by decide) (by decide)

theorem playerLoad_no_limit (lk : PlayerLookups) (cs : ClientState)
    (now : Int) (info : ApiInfoData) (p : Player) (u l : Int) :
    (Player.loadFn lk cs now info p).1 ≠
      Except.error (GMError.limitReached u l) := by
  obtain ⟨pn, pu⟩ := p
  rcases pn with _ | n <;> rcases pu with _ | u'
  · simp [Player.loadFn]
  · by_cases h : lk.playernameFromUuid u' = "" <;> simp [Player.loadFn, h]
  · by_cases h : lk.uuidFromPlayername n = "" <;> simp [Player.loadFn, h]
  · simp [Player.loadFn]

theorem playerCreate_no_limit (lazy : Bool) (lk : PlayerLookups)
    (cs : ClientState) (now : Int) (info : ApiInfoData)
    (pn pu : Option String) (u l : Int) :
    (Player.createFn lazy lk cs now info pn pu).1 ≠
      Except.error (GMError.limitReached u l) := by
  cases lazy with
  | false =>
    simp only [Player.createFn]
    exact playerLoad_no_limit lk cs now info ⟨pn, pu⟩ u l
  | true => simp [Player.createFn]

theorem fromSchema_no_limit (lazy : Bool) (lk : PlayerLookups)
    (cs : ClientState) (now : Int) (info : ApiInfoData) (d : BankAccountData)
    (u l : Int) :
    (BankAccount.fromSchema lazy lk cs now info d).1 ≠
      Except.error (GMError.limitReached u l) := by
  rcases hA : d.accountType with _ | _
  · rcases hP : Player.createFn lazy lk cs now info (some d.bearer) none
      with ⟨pres, cs1, tr1⟩
    have hnl := playerCreate_no_limit lazy lk cs now info (some d.bearer) none u l
    rw [hP] at hnl
    cases pres with
    | error e =>
      simp only [BankAccount.fromSchema, hA, hP]
      intro hh
      replace hh : (Except.error e : Except GMError BankAccount) =
        Except.error (GMError.limitReached u l) := hh
      injection hh with hh2
      exact hnl (by rw [hh2])
    | ok p => simp [BankAccount.fromSchema, hA, hP]
  · simp [BankAccount.fromSchema, hA]

theorem listAllItems_no_limit (lazy : Bool) (lk : PlayerLookups) (now : Int)
    (info : ApiInfoData) (ds : List BankAccountData) :
    ∀ (cs : ClientState) (u l : Int),
      (listAllItems lazy lk now info ds cs).1 ≠
        Except.error (GMError.limitReached u l) := by
  induction ds with
  | nil => intro cs u l; simp [listAllItems]
  | cons d rest ih =>
    intro cs u l
    rcases hF : BankAccount.fromSchema lazy lk cs now info d
      with ⟨fres, cs1, tr1⟩
    have hnl := fromSchema_no_limit lazy lk cs now info d u l
    rw [hF] at hnl
    cases fres with
    | error e =>
      simp only [listAllItems, hF]
      intro hh
      replace hh : (Except.error e : Except GMError (List BankAccount)) =
        Except.error (GMError.limitReached u l) := hh
      injection hh with hh2
      exact hnl (by rw [hh2])
    | ok a =>
      rcases hR : listAllItems lazy lk now info rest cs1 with ⟨rres, cs2, tr2⟩
      have hr := ih cs1 u l
      rw [hR] at hr
      cases rres with
      | error e =>
        simp only [listAllItems, hF, hR]
        intro hh
        replace hh : (Except.error e : Except GMError (List BankAccount)) =
          Except.error (GMError.limitReached u l) := hh
        injection hh with hh2
        exact hr (by rw [hh2])
      | ok as => simp [listAllItems, hF, hR]

theorem playerCreate_ok_shape (lazy : Bool) (lk : PlayerLookups)
    (cs : ClientState) (now : Int) (info : ApiInfoData) (name : String)
    (p : Player) (cs' : ClientState) (tr : List Endpoint)
    (h : Player.createFn lazy lk cs now info (some name) none =
      (Except.ok p, cs', tr)) :
    p.playerName = some name ∧
    (lazy = true → p.uuid = none) ∧
    (lazy = false → p.uuid = some (lk.uuidFromPlayername name)) := by
  cases lazy with
  | true =>
    have h' : ((Except.ok ⟨some name, none⟩ : Except GMError Player), cs,
        ([] : List Endpoint)) = (Except.ok p, cs', tr) := by
      rw [← h]; rfl
    injection h' with h1 h2
    injection h1 with h1
    subst h1
    exact ⟨rfl, fun _ => rfl, fun hh => absurd hh (by decide)⟩
  | false =>
    by_cases hl : lk.uuidFromPlayername name = ""
    · exfalso
      have h' : ((Except.error
            (GMError.apiError "Could not fetch UUID from API.") :
            Except GMError Player),
          (floatingPrecheck cs now info).1,
          (floatingPrecheck cs now info).2 ++ [Endpoint.utilUuid name]) =
          (Except.ok p, cs', tr) := by
        rw [← h]
        simp [Player.createFn, Player.loadFn, hl]
      injection h' with h1 h2
      injection h1
    · have h' : ((Except.ok
            ⟨some name, some (lk.uuidFromPlayername name)⟩ :
            Except GMError Player),
          (floatingPrecheck cs now info).1,
          (floatingPrecheck cs now info).2 ++ [Endpoint.utilUuid name]) =
          (Except.ok p, cs', tr) := by
        rw [← h]
        simp [Player.createFn, Player.loadFn, hl]
      injection h' with h1 h2
      injection h1 with h1
      subst h1
      exact ⟨rfl, fun hh => absurd hh (by decide), fun _ => rfl⟩

theorem playerCreate_ok_total (lazy : Bool) (lk : PlayerLookups)
    (cs : ClientState) (now : Int) (info : ApiInfoData) (name : String)
    (hl : lk.uuidFromPlayername name ≠ "") :
    ∃ p cs' tr, Player.createFn lazy lk cs now info (some name) none =
      (Except.ok p, cs', tr) := by
  cases lazy with
  | true => exact ⟨⟨some name, none⟩, cs, [], by simp [Player.createFn]⟩
  | false =>
    refine ⟨⟨some name, some (lk.uuidFromPlayername name)⟩,
      (floatingPrecheck cs now info).1,
      (floatingPrecheck cs now info).2 ++ [Endpoint.utilUuid name], ?_⟩
    simp [Player.createFn, Player.loadFn, hl]

theorem bankLoad_ok_shape (lazy : Bool) (lk : PlayerLookups)
    (cs : ClientState) (now : Int) (info : ApiInfoData)
    (resp : BankAccountData) (acc : BankAccount) (a : BankAccount)
    (s' : ClientState) (tr : List Endpoint)
    (h : BankAccount.loadFn lazy lk cs now info resp acc =
      (Except.ok a, s', tr)) :
    a.accountNumber = acc.accountNumber ∧ a.balance = some resp.balance ∧
    a.accountType = some resp.accountType ∧ a.bearer.isSome = true ∧
    Endpoint.bankInfo acc.accountNumber ∈ tr := by
  rcases hE : handleOperation cs now info false with ⟨res, cs1, tr0⟩
  cases res with
  | error e =>
    simp only [BankAccount.loadFn, hE] at h
    injection h with h1 _
    exact absurd h1 (by simp)
  | ok _ =>
    rcases hA : resp.accountType with _ | _
    · rcases hP : Player.createFn lazy lk cs1 now info (some resp.bearer) none
        with ⟨pres, cs2, tr2⟩
      cases pres with
      | error e2 =>
        simp only [BankAccount.loadFn, hE, hA, hP] at h
        injection h with h1 _
        exact absurd h1 (by simp)
      | ok p =>
        simp only [BankAccount.loadFn, hE, hA, hP] at h
        injection h with h1 h2
        injection h2 with h2 h3
        injection h1 with h1
        subst h1
        subst h3
        simp [hA]
    · simp only [BankAccount.loadFn, hE, hA] at h
      injection h with h1 h2
      injection h2 with h2 h3
      injection h1 with h1
      subst h1
      subst h3
      simp [hA]

/-- C2: for every resource fetch with `bypass` false (a `BankAccount` load
and a `BankService.listAll`): when the cache is older than the TTL, the
precheck's refresh is the first endpoint hit, before the resource endpoint;
whenever the call fails with the limit error, that error carries the cached
used/limit values at failure time and the resource endpoint was never hit;
and with a fresh cache already showing the limit reached, the call fails with
the limit error and performs no network call at all. -/
theorem C2_precheck_guard (lazy : Bool) (lk : PlayerLookups)
    (cs : ClientState) (now : Int) (info : ApiInfoData)
    (resp : BankAccountData) (acc : BankAccount) (lresp : ListResp) :
    (now - cs.lastUpdated > MAX_CACHE_LIFETIME →
      (BankAccount.loadFn lazy lk cs now info resp acc).2.2.head? =
        some Endpoint.apiInfo ∧
      (BankService.listAll lazy lk cs now info lresp).2.2.head? =
        some Endpoint.apiInfo) ∧
    (∀ u l s' tr, BankAccount.loadFn lazy lk cs now info resp acc =
        (Except.error (GMError.limitReached u l), s', tr) →
      u = s'.requestCount ∧ l = s'.REQ_LIMIT ∧
        Endpoint.bankInfo acc.accountNumber ∉ tr) ∧
    (∀ u l s' tr, BankService.listAll lazy lk cs now info lresp =
        (Except.error (GMError.limitReached u l), s', tr) →
      u = s'.requestCount ∧ l = s'.REQ_LIMIT ∧ Endpoint.bankList ∉ tr) ∧
    (now - cs.lastUpdated ≤ MAX_CACHE_LIFETIME →
      cs.REQ_LIMIT ≤ cs.requestCount →
      BankAccount.loadFn lazy lk cs now info resp acc =
        (Except.error (GMError.limitReached (cs.requestCount + 1) cs.REQ_LIMIT),
          { cs with requestCount := cs.requestCount + 1 }, []) ∧
      BankService.listAll lazy lk cs now info lresp =
        (Except.error (GMError.limitReached (cs.requestCount + 1) cs.REQ_LIMIT),
          { cs with requestCount := cs.requestCount + 1 }, [])) := by
  refine ⟨?_, ?_, ?_, ?_⟩
  · intro hst
    constructor
    · by_cases hlim : info.limit ≤ info.requests
      · simp [BankAccount.loadFn,
          handleOperation_stale_limit cs now info hst hlim]
      · have hE := handleOperation_stale_ok cs now info hst (by omega)
        rcases hA : resp.accountType with _ | _
        · rcases hP : Player.createFn lazy lk ⟨info.limit, info.requests, now, info⟩
            now info (some resp.bearer) none with ⟨pres, cs2, tr2⟩
          cases pres <;> simp [BankAccount.loadFn, hE, hA, hP]
        · simp [BankAccount.loadFn, hE, hA]
    · by_cases hlim : info.limit ≤ info.requests
      · simp [BankService.listAll,
          handleOperation_stale_limit cs now info hst hlim]
      · have hE := handleOperation_stale_ok cs now info hst (by omega)
        rcases hI : listAllItems lazy lk now info (objectValues lresp)
          ⟨info.limit, info.requests, now, info⟩ with ⟨rres, cs2, tr2⟩
        cases rres <;> simp [BankService.listAll, hE, hI]
  · intro u l s' tr h
    rcases hE : handleOperation cs now info false with ⟨res, cs1, tr0⟩
    have htr := handleOperation_trace cs now info false
    rw [hE] at htr
    simp only at htr
    cases res with
    | error e =>
      have hsh := handleOperation_error_shape cs now info false e cs1 tr0 hE
      simp only [BankAccount.loadFn, hE] at h
      injection h with h1 h2
      injection h2 with h2 h3
      injection h1 with h1
      subst h2
      subst h3
      rw [h1] at hsh
      injection hsh with hu hl
      refine ⟨hu, hl, ?_⟩
      rcases htr with htr | htr <;> simp [htr]
    | ok _ =>
      rcases hA : resp.accountType with _ | _
      · rcases hP : Player.createFn lazy lk cs1 now info (some resp.bearer) none
          with ⟨pres, cs2, tr2⟩
        have hnl := playerCreate_no_limit lazy lk cs1 now info
          (some resp.bearer) none u l
        rw [hP] at hnl
        cases pres with
        | error e2 =>
          simp only [BankAccount.loadFn, hE, hA, hP] at h
          injection h with h1 _
          injection h1 with h1e
          exact absurd (by rw [h1e] : (Except.error e2, cs2, tr2).1 =
            Except.error (GMError.limitReached u l)) hnl
        | ok p =>
          simp only [BankAccount.loadFn, hE, hA, hP] at h
          injection h with h1 _
          exact absurd h1 (by simp)
      · simp only [BankAccount.loadFn, hE, hA] at h
        injection h with h1 _
        exact absurd h1 (by simp)
  · intro u l s' tr h
    rcases hE : handleOperation cs now info false with ⟨res, cs1, tr0⟩
    have htr := handleOperation_trace cs now info false
    rw [hE] at htr
    simp only at htr
    cases res with
    | error e =>
      have hsh := handleOperation_error_shape cs now info false e cs1 tr0 hE
      simp only [BankService.listAll, hE] at h
      injection h with h1 h2
      injection h2 with h2 h3
      injection h1 with h1
      subst h2
      subst h3
      rw [h1] at hsh
      injection hsh with hu hl
      refine ⟨hu, hl, ?_⟩
      rcases htr with htr | htr <;> simp [htr]
    | ok _ =>
      rcases hI : listAllItems lazy lk now info (objectValues lresp) cs1
        with ⟨rres, cs2, tr2⟩
      have hnl := listAllItems_no_limit lazy lk now info (objectValues lresp)
        cs1 u l
      rw [hI] at hnl
      cases rres with
      | error e2 =>
        simp only [BankService.listAll, hE, hI] at h
        injection h with h1 _
        exact absurd h1 hnl
      | ok as =>
        simp only [BankService.listAll, hE, hI] at h
        injection h with h1 _
        exact absurd h1 (by simp)
  · intro h1 h2
    have hE := handleOperation_fresh_limit cs now info h1 (by omega)
    exact ⟨by simp [BankAccount.loadFn, hE], by simp [BankService.listAll, hE]⟩

theorem C2_precheck_guard_witness :
    BankAccount.loadFn true ⟨fun _ => "u", fun _ => "n"⟩
        ⟨10, 10, 0, ⟨10, 10, 0⟩⟩ 0 ⟨10, 10, 0⟩
        ⟨"ACC1", 5, BankAccountType.firma, "Corp"⟩
        ⟨"ACC1", none, none, none⟩ =
      (Except.error (GMError.limitReached 11 10), ⟨10, 11, 0, ⟨10, 10, 0⟩⟩,
        []) ∧
    BankService.listAll true ⟨fun _ => "u", fun _ => "n"⟩
        ⟨10, 10, 0, ⟨10, 10, 0⟩⟩ 0 ⟨10, 10, 0⟩ (ListResp.arr []) =
      (Except.error (GMError.limitReached 11 10), ⟨10, 11, 0, ⟨10, 10, 0⟩⟩,
        []) :=
  (C2_precheck_guard true ⟨fun _ => "u", fun _ => "n"⟩
    ⟨10, 10, 0, ⟨10, 10, 0⟩⟩ 0 ⟨10, 10, 0⟩
    ⟨"ACC1", 5, BankAccountType.firma, "Corp"⟩ ⟨"ACC1", none, none, none⟩
    (ListResp.arr [])).2.2.2 (by decide) (by decide)

/-- C6: with the lazy flag true, `bank(accountNumber)` returns an object
whose `accountNumber` equals the input with `balance`, `accountType`,
`bearer` all unset, the client state unchanged and zero network calls; with
the lazy flag false, the factory is exactly a load of the fresh object, and
on success items are populated and the `bank/info` endpoint was hit. -/
theorem C6_bank_factory (lazy : Bool) (lk : PlayerLookups) (cs : ClientState)
    (now : Int) (info : ApiInfoData) (resp : BankAccountData)
    (accountNumber : String) :
    (lazy = true →
      GMClient.bank lazy lk cs now info resp accountNumber =
        (Except.ok ⟨accountNumber, none, none, none⟩, cs, [])) ∧
    (lazy = false →
      GMClient.bank lazy lk cs now info resp accountNumber =
        BankAccount.loadFn false lk cs now info resp
          ⟨accountNumber, none, none, none⟩ ∧
      ∀ a s' tr, GMClient.bank lazy lk cs now info resp accountNumber =
          (Except.ok a, s', tr) →
        a.accountNumber = accountNumber ∧ a.balance = some resp.balance ∧
        a.accountType = some resp.accountType ∧ a.bearer.isSome = true ∧
        Endpoint.bankInfo accountNumber ∈ tr) := by
  constructor
  · intro hl; subst hl
    simp [GMClient.bank, BankAccount.createFn]
  · intro hl; subst hl
    refine ⟨rfl, ?_⟩
    intro a s' tr h
    replace h : BankAccount.loadFn false lk cs now info resp
        ⟨accountNumber, none, none, none⟩ = (Except.ok a, s', tr) := h
    have hsh := bankLoad_ok_shape false lk cs now info resp
      ⟨accountNumber, none, none, none⟩ a s' tr h
    simpa using hsh

theorem C6_bank_factory_witness :
    GMClient.bank true ⟨fun _ => "u", fun _ => "n"⟩ ⟨10, 3, 0, ⟨10, 3, 0⟩⟩ 0
        ⟨10, 3, 0⟩ ⟨"ACC1", 5, BankAccountType.firma, "Corp"⟩ "ACC1" =
      (Except.ok ⟨"ACC1", none, none, none⟩, ⟨10, 3, 0, ⟨10, 3, 0⟩⟩, []) :=
  (C6_bank_factory true ⟨fun _ => "u", fun _ => "n"⟩ ⟨10, 3, 0, ⟨10, 3, 0⟩⟩ 0
    ⟨10, 3, 0⟩ ⟨"ACC1", 5, BankAccountType.firma, "Corp"⟩ "ACC1").1 rfl

/-- C7: whenever a load (or a `_fromSchema` construction, the `listAll` path)
succeeds on a record whose `accountType` is `Privatkonto`, the resulting
`bearer` is a `Player` entity — not a raw string — built from the record's
bearer string under the same lazy flag as the parent: with lazy mode on its
`uuid` is still unset (the nested Player is unloaded), with lazy mode off it
was resolved through the uuid lookup. -/
theorem C7_private_bearer_player (lazy : Bool) (lk : PlayerLookups)
    (cs : ClientState) (now : Int) (info : ApiInfoData)
    (resp : BankAccountData) (acc : BankAccount)
    (hA : resp.accountType = BankAccountType.privatkonto) :
    (∀ a s' tr, BankAccount.loadFn lazy lk cs now info resp acc =
        (Except.ok a, s', tr) →
      ∃ p : Player, a.bearer = some (BearerType.player p) ∧
        p.playerName = some resp.bearer ∧
        (lazy = true → p.uuid = none) ∧
        (lazy = false → p.uuid = some (lk.uuidFromPlayername resp.bearer))) ∧
    (∀ a s' tr, BankAccount.fromSchema lazy lk cs now info resp =
        (Except.ok a, s', tr) →
      ∃ p : Player, a.bearer = some (BearerType.player p) ∧
        p.playerName = some resp.bearer ∧
        (lazy = true → p.uuid = none) ∧
        (lazy = false → p.uuid = some (lk.uuidFromPlayername resp.bearer))) := by
  constructor
  · intro a s' tr h
    rcases hE : handleOperation cs now info false with ⟨res, cs1, tr0⟩
    cases res with
    | error e =>
      simp only [BankAccount.loadFn, hE] at h
      injection h with h1 _
      exact absurd h1 (by simp)
    | ok _ =>
      rcases hP : Player.createFn lazy lk cs1 now info (some resp.bearer) none
        with ⟨pres, cs2, tr2⟩
      cases pres with
      | error e2 =>
        simp only [BankAccount.loadFn, hE, hA, hP] at h
        injection h with h1 _
        exact absurd h1 (by simp)
      | ok p =>
        simp only [BankAccount.loadFn, hE, hA, hP] at h
        injection h with h1 h2
        injection h1 with h1
        subst h1
        have hsh := playerCreate_ok_shape lazy lk cs1 now info resp.bearer
          p cs2 tr2 hP
        exact ⟨p, by simp, hsh.1, hsh.2.1, hsh.2.2⟩
  · intro a s' tr h
    rcases hP : Player.createFn lazy lk cs now info (some resp.bearer) none
      with ⟨pres, cs2, tr2⟩
    cases pres with
    | error e2 =>
      simp only [BankAccount.fromSchema, hA, hP] at h
      injection h with h1 _
      exact absurd h1 (by simp)
    | ok p =>
      simp only [BankAccount.fromSchema, hA, hP] at h
      injection h with h1 h2
      injection h1 with h1
      subst h1
      have hsh := playerCreate_ok_shape lazy lk cs now info resp.bearer
        p cs2 tr2 hP
      exact ⟨p, by simp, hsh.1, hsh.2.1, hsh.2.2⟩

theorem C7_private_bearer_player_witness :
    ∃ p : Player,
      (⟨"ACC2", some 7, some BankAccountType.privatkonto,
          some (BearerType.player ⟨some "Steve", none⟩)⟩ :
        BankAccount).bearer = some (BearerType.player p) ∧
      p.playerName = some "Steve" ∧
      (true = true → p.uuid = none) ∧
      (true = false → p.uuid = some ((⟨fun _ => "u", fun _ => "n"⟩ :
        PlayerLookups).uuidFromPlayername "Steve")) :=
  (C7_private_bearer_player true ⟨fun _ => "u", fun _ => "n"⟩
    ⟨10, 3, 0, ⟨10, 3, 0⟩⟩ 0 ⟨10, 3, 0⟩
    ⟨"ACC2", 7, BankAccountType.privatkonto, "Steve"⟩
    ⟨"ACC2", none, none, none⟩ rfl).1
    ⟨"ACC2", some 7, some BankAccountType.privatkonto,
      some (BearerType.player ⟨some "Steve", none⟩)⟩
    ⟨10, 4, 0, ⟨10, 3, 0⟩⟩ [Endpoint.bankInfo "ACC2"] rfl

theorem fromSchema_ok_carry (lazy : Bool) (lk : PlayerLookups)
    (cs : ClientState) (now : Int) (info : ApiInfoData) (d : BankAccountData)
    (hlk : ∀ n, lk.uuidFromPlayername n ≠ "") :
    ∃ a s' tr, BankAccount.fromSchema lazy lk cs now info d =
      (Except.ok a, s', tr) ∧ carriesData d a = true := by
  rcases hA : d.accountType with _ | _
  · obtain ⟨p, cs', tr, hP⟩ :=
      playerCreate_ok_total lazy lk cs now info d.bearer (hlk d.bearer)
    have hsh := playerCreate_ok_shape lazy lk cs now info d.bearer p cs' tr hP
    refine ⟨⟨d.accountNumber, some d.balance, some d.accountType,
      some (BearerType.player p)⟩, cs', tr, ?_, ?_⟩
    · simp [BankAccount.fromSchema, hA, hP]
    · simp [carriesData, hA, hsh.1]
  · refine ⟨⟨d.accountNumber, some d.balance, some d.accountType,
      some (BearerType.name d.bearer)⟩, cs, [], ?_, ?_⟩
    · simp [BankAccount.fromSchema, hA]
    · simp [carriesData, hA]

/-- C9: `listAll` treats the object-map response and the array response
containing the same records identically (the whole call is equal on both),
and on the two-record input it succeeds with exactly two `BankAccount`
objects carrying the two records' data. -/
theorem C9_listAll_shape_tolerance (lazy : Bool) (lk : PlayerLookups)
    (cs : ClientState) (now : Int) (info : ApiInfoData) (k1 k2 : String)
    (r1 r2 : BankAccountData)
    (hfresh : now - cs.lastUpdated ≤ MAX_CACHE_LIFETIME)
    (hlim : cs.requestCount + 1 < cs.REQ_LIMIT)
    (hlk : ∀ n, lk.uuidFromPlayername n ≠ "") :
    BankService.listAll lazy lk cs now info
        (ListResp.objMap [(k1, r1), (k2, r2)]) =
      BankService.listAll lazy lk cs now info (ListResp.arr [r1, r2]) ∧
    ∃ a1 a2 s' tr,
      BankService.listAll lazy lk cs now info (ListResp.arr [r1, r2]) =
        (Except.ok [a1, a2], s', tr) ∧
      carriesData r1 a1 = true ∧ carriesData r2 a2 = true := by
  constructor
  · rfl
  · have hE := handleOperation_fresh_ok cs now info hfresh hlim
    obtain ⟨a1, s1, tr1, hF1, hc1⟩ := fromSchema_ok_carry lazy lk
      { cs with requestCount := cs.requestCount + 1 } now info r1 hlk
    obtain ⟨a2, s2, tr2, hF2, hc2⟩ := fromSchema_ok_carry lazy lk
      s1 now info r2 hlk
    have hList : BankService.listAll lazy lk cs now info
        (ListResp.arr [r1, r2]) =
        (Except.ok [a1, a2], s2,
          (([] : List Endpoint) ++ [Endpoint.bankList]) ++
            (tr1 ++ (tr2 ++ []))) := by
      simp only [BankService.listAll, hE, objectValues, listAllItems,
        hF1, hF2]
    exact ⟨a1, a2, s2, _, hList, hc1, hc2⟩

theorem C9_listAll_shape_tolerance_witness :
    BankService.listAll true ⟨fun _ => "u", fun _ => "n"⟩
        ⟨10, 3, 0, ⟨10, 3, 0⟩⟩ 0 ⟨10, 3, 0⟩
        (ListResp.objMap
          [("ACC1", ⟨"ACC1", 5, BankAccountType.firma, "Corp"⟩),
           ("ACC2", ⟨"ACC2", 7, BankAccountType.privatkonto, "Steve"⟩)]) =
      BankService.listAll true ⟨fun _ => "u", fun _ => "n"⟩
        ⟨10, 3, 0, ⟨10, 3, 0⟩⟩ 0 ⟨10, 3, 0⟩
        (ListResp.arr
          [⟨"ACC1", 5, BankAccountType.firma, "Corp"⟩,
           ⟨"ACC2", 7, BankAccountType.privatkonto, "Steve"⟩]) :=
  (C9_listAll_shape_tolerance true ⟨fun _ => "u", fun _ => "n"⟩
    ⟨10, 3, 0, ⟨10, 3, 0⟩⟩ 0 ⟨10, 3, 0⟩ "ACC1" "ACC2"
    ⟨"ACC1", 5, BankAccountType.firma, "Corp"⟩
    ⟨"ACC2", 7, BankAccountType.privatkonto, "Steve"⟩
    (by decide) (by decide)
    (fun n => by show ("u" : String) ≠ ""; decide)).1

end GM
